import Mathlib

/-!
Verification of the security-baseline generation system
(`lambda_functions/requirement_processor.py`,
`lambda_functions/security_baseline_orchestrator.py`,
`lambda_functions/resource_cleanup.py`).

The Python handlers are shallowly embedded as pure Lean functions.  External
collaborators (resource manager, validators, configuration refiner, the
cleanup lambda) are modelled as oracles supplying the payload each invocation
would return; every invocation the handler performs is recorded in an event
trace so that invocation counts and invocation order can be stated.  The
wall clock (`datetime.now().isoformat()`) is abstracted as a fixed string.
-/

namespace SecBaseline

/-- Result payload of a `deploy` invocation of the resource manager
(`deploy_test_resources`): a `success` flag and an optional `error`. -/
structure DeployResult where
  success : Bool
  error : Option String
  deriving Repr, DecidableEq

/-- Result payload of a validator invocation (`run_validation_tests`):
`success`, optional `error`, and the structured `details`. -/
structure ValidationResult where
  success : Bool
  error : Option String
  details : String
  deriving Repr, DecidableEq

/-- Result payload of a `config_refiner` invocation (`refine_configuration`):
`success`, optional `error`, the `refined_config`, and the `notes` list. -/
structure RefineResult where
  success : Bool
  error : Option String
  refined_config : String
  notes : List String
  deriving Repr, DecidableEq

/-- A requirement dictionary.  The loop-owned mutable keys are `Option`-valued
(`none` = key absent), matching the Python dict before the loop writes them. -/
structure Requirement where
  description : String := ""
  objective : String := ""
  configuration : String := ""
  priority : String := ""
  validation_status : String := "PENDING"
  validation_error : Option String := none
  validation_details : Option String := none
  last_test_details : Option String := none
  test_attempts : Option Nat := none
  validation_timestamp : Option String := none
  refinement_notes : List String := []
  deriving Repr, DecidableEq

/-- Abstraction of `datetime.now().isoformat()`. -/
def nowTS : String := "1970-01-01T00:00:00"

/-- A sample requirement (generation output; loop-owned keys absent). -/
def req0 : Requirement :=
  { description := "Instance Metadata Service v1 must be disabled"
    objective := "Access Control"
    configuration := "HttpTokens=required"
    priority := "HIGH" }

namespace RequirementProcessor

/-- Oracle for the external lambda invocations made by one requirement run,
keyed by the attempt number at which the invocation happens. -/
structure LoopEnv where
  deploy : Nat → DeployResult
  validate : Nat → ValidationResult
  refine : Nat → RefineResult

/-- One external invocation performed by the handler.  For `cleanup` the
`async` flag records the boto3 `InvocationType`: `true` for `Event`
(fire-and-forget), `false` for `RequestResponse` (blocks until the invoked
function completes). -/
inductive Event where
  | deploy (attempt : Nat)
  | validate (attempt : Nat)
  | refine (attempt : Nat)
  | cleanup (attempt : Nat) (async : Bool)
  deriving Repr, DecidableEq

/-- How the handler run ended (instrumentation mirroring the control flow of
`lambda_handler`). -/
inductive ExitKind where
  /-- early `return create_failed_response(...)` after a deploy failure -/
  | deployFail
  /-- `return` after a validation success -/
  | validated
  /-- `break` after a refinement failure, falling through to the final block -/
  | refineBreak
  /-- the `while` guard became false (all attempts used) -/
  | exhausted
  /-- the final block ran with `validation_result` never assigned -/
  | noValidation
  deriving Repr, DecidableEq

/-- Result of one `lambda_handler` run: HTTP-ish status, the returned
requirement body (or the 500 error body), the trace of external invocations,
plus instrumentation: the exit path taken and the number of provision-validate
attempts begun. -/
structure RunResult where
  statusCode : Nat
  body : Option Requirement
  errBody : Option String
  trace : List Event
  exit : ExitKind
  attemptsRun : Nat
  deriving Repr, DecidableEq

/-- The requirement produced by the final block of `lambda_handler`
(source lines 101-104): status `FAILED`, `validation_error` from the last
validation result (with the Python `.get` default), `test_attempts` set to
`max_attempts`, `last_test_details` from the last validation result. -/
def failedBody (maxA : Nat) (req : Requirement) (v : ValidationResult) : Requirement :=
  { req with
    validation_status := "FAILED"
    validation_error := some (v.error.getD "Maximum retry attempts exceeded")
    test_attempts := some maxA
    last_test_details := some v.details }

/-- The `while current_attempt <= max_attempts` loop of `lambda_handler`.
`fuel` is the standard structural-termination bound (the caller passes the
number of loop iterations still permitted, so `fuel = 0` coincides with the
guard `attempt ≤ maxA` being false); `lastVal` is the Python local
`validation_result` as last assigned. -/
def go (env : LoopEnv) (maxA : Nat) :
    Nat → Nat → Requirement → Option ValidationResult → RunResult
  | 0, attempt, req, lastVal =>
    match lastVal with
    | some v =>
      { statusCode := 200, body := some (failedBody maxA req v), errBody := none
        trace := [], exit := ExitKind.exhausted, attemptsRun := attempt - 1 }
    | none =>
      { statusCode := 500, body := none
        errBody := some "name validation_result is not defined"
        trace := [], exit := ExitKind.noValidation, attemptsRun := attempt - 1 }
  | fuel + 1, attempt, req, lastVal =>
    if attempt ≤ maxA then
      let d := env.deploy attempt
      if d.success then
        let v := env.validate attempt
        if v.success then
          -- success: cleanup (async), mark VALIDATED, return
          { statusCode := 200
            body := some { req with
              validation_status := "VALIDATED"
              validation_details := some v.details
              test_attempts := some attempt
              validation_timestamp := some nowTS }
            errBody := none
            trace := [Event.deploy attempt, Event.validate attempt,
              Event.cleanup attempt true]
            exit := ExitKind.validated, attemptsRun := attempt }
        else if attempt < maxA then
          let r := env.refine attempt
          if r.success then
            -- refined: overwrite configuration and notes, cleanup, next attempt
            let rest := go env maxA fuel (attempt + 1)
              { req with
                  configuration := r.refined_config
                  refinement_notes := r.notes } (some v)
            { rest with trace :=
                [Event.deploy attempt, Event.validate attempt,
                  Event.refine attempt, Event.cleanup attempt true] ++ rest.trace }
          else
            -- refinement failed: `break` straight into the final block
            { statusCode := 200, body := some (failedBody maxA req v), errBody := none
              trace := [Event.deploy attempt, Event.validate attempt,
                Event.refine attempt]
              exit := ExitKind.refineBreak, attemptsRun := attempt }
        else
          -- last attempt failed validation: cleanup, loop exits via the guard
          let rest := go env maxA fuel (attempt + 1) req (some v)
          { rest with trace :=
              [Event.deploy attempt, Event.validate attempt,
                Event.cleanup attempt true] ++ rest.trace }
      else
        -- deploy failure: create_failed_response and return
        { statusCode := 200
          body := some { req with
            validation_status := "FAILED"
            validation_error := d.error
            validation_timestamp := some nowTS }
          errBody := none
          trace := [Event.deploy attempt]
          exit := ExitKind.deployFail, attemptsRun := attempt }
    else
      match lastVal with
      | some v =>
        { statusCode := 200, body := some (failedBody maxA req v), errBody := none
          trace := [], exit := ExitKind.exhausted, attemptsRun := attempt - 1 }
      | none =>
        { statusCode := 500, body := none
          errBody := some "name validation_result is not defined"
          trace := [], exit := ExitKind.noValidation, attemptsRun := attempt - 1 }

/-- `max_attempts = 3` from the source. -/
def max_attempts : Nat := 3

/-- `lambda_handler` of `requirement_processor.py`: run the loop from
attempt 1 with the hardcoded `max_attempts`. -/
def lambda_handler (env : LoopEnv) (req : Requirement) : RunResult :=
  go env max_attempts max_attempts 1 req none

/-- Is this event a deploy (provisioner) invocation? -/
def isDeploy : Event → Bool
  | .deploy _ => true
  | _ => false

/-- Is this event a validator invocation? -/
def isValidate : Event → Bool
  | .validate _ => true
  | _ => false

/-- Is this event a refiner invocation? -/
def isRefine : Event → Bool
  | .refine _ => true
  | _ => false

/-- Is this event a cleanup (reclamation) invocation? -/
def isCleanup : Event → Bool
  | .cleanup _ _ => true
  | _ => false

/-- Number of provisioner invocations in a trace. -/
def countDeploys (tr : List Event) : Nat := tr.countP isDeploy

/-- Number of validator invocations in a trace. -/
def countValidates (tr : List Event) : Nat := tr.countP isValidate

/-- Number of refiner invocations in a trace. -/
def countRefines (tr : List Event) : Nat := tr.countP isRefine

/-- Number of reclamation invocations in a trace. -/
def countCleanups (tr : List Event) : Nat := tr.countP isCleanup

/-- Environment: deploys succeed, every validation fails, every refinement
fails.  The first refinement failure triggers the `break`. -/
def envRefineFail : LoopEnv :=
  { deploy := fun _ => { success := true, error := none }
    validate := fun _ =>
      { success := false, error := some "imds check failed", details := "detail1" }
    refine := fun _ =>
      { success := false, error := some "refiner unavailable",
        refined_config := "", notes := [] } }

/-- Unfolding lemma: a run with no remaining permitted iterations is the
final block. -/
theorem go_zero (env : LoopEnv) (maxA attempt : Nat) (req : Requirement)
    (lastVal : Option ValidationResult) :
    go env maxA 0 attempt req lastVal =
      match lastVal with
      | some v =>
        { statusCode := 200, body := some (failedBody maxA req v), errBody := none
          trace := [], exit := ExitKind.exhausted, attemptsRun := attempt - 1 }
      | none =>
        { statusCode := 500, body := none
          errBody := some "name validation_result is not defined"
          trace := [], exit := ExitKind.noValidation, attemptsRun := attempt - 1 } := rfl

/-- In every run of the loop, the number of validator invocations equals the
number of reclamation invocations, except that the refinement-failure exit
(`break`) skips the reclamation of its final attempt. -/
theorem go_validates_cleanups (env : LoopEnv) (maxA : Nat) :
    ∀ fuel attempt req lastVal,
      countValidates (go env maxA fuel attempt req lastVal).trace =
        countCleanups (go env maxA fuel attempt req lastVal).trace +
          (if (go env maxA fuel attempt req lastVal).exit = ExitKind.refineBreak
            then 1 else 0) := by
  intro fuel
  induction fuel with
  | zero =>
    intro attempt req lastVal
    cases lastVal <;>
      simp [go_zero, countValidates, countCleanups]
  | succ fuel ih =>
    intro attempt req lastVal
    simp only [go]
    split
    · split
      · split
        · simp [countValidates, countCleanups, isValidate, isCleanup,
            List.countP_cons, List.countP_nil]
        · split
          · split
            · have h := ih (attempt + 1)
                { req with
                    configuration := (env.refine attempt).refined_config
                    refinement_notes := (env.refine attempt).notes }
                (some (env.validate attempt))
              simp [countValidates, countCleanups, List.countP_append,
                List.countP_cons, List.countP_nil, isValidate, isCleanup] at h ⊢
              split <;> rename_i hrb
              · rw [if_pos hrb] at h; omega
              · rw [if_neg hrb] at h; omega
            · simp [countValidates, countCleanups, isValidate, isCleanup,
                List.countP_cons, List.countP_nil]
          · have h := ih (attempt + 1) req (some (env.validate attempt))
            simp [countValidates, countCleanups, List.countP_append,
              List.countP_cons, List.countP_nil, isValidate, isCleanup] at h ⊢
            split <;> rename_i hrb
            · rw [if_pos hrb] at h; omega
            · rw [if_neg hrb] at h; omega
      · simp [countValidates, countCleanups, isValidate, isCleanup,
          List.countP_cons, List.countP_nil]
    · cases lastVal <;>
        simp [countValidates, countCleanups]

/-- The instrumentation field `attemptsRun` counts exactly the provisioner
invocations of the run (starting from attempt `attempt`). -/
theorem go_attemptsRun (env : LoopEnv) (maxA : Nat) :
    ∀ fuel attempt req lastVal, 1 ≤ attempt →
      (go env maxA fuel attempt req lastVal).attemptsRun + 1 =
        attempt + countDeploys (go env maxA fuel attempt req lastVal).trace := by
  intro fuel
  induction fuel with
  | zero =>
    intro attempt req lastVal h1
    cases lastVal <;> simp [go_zero, countDeploys] <;> omega
  | succ fuel ih =>
    intro attempt req lastVal h1
    simp only [go]
    split
    · split
      · split
        · simp [countDeploys, isDeploy, List.countP_cons, List.countP_nil]
        · split
          · split
            · have h := ih (attempt + 1)
                { req with
                    configuration := (env.refine attempt).refined_config
                    refinement_notes := (env.refine attempt).notes }
                (some (env.validate attempt)) (by omega)
              simp [countDeploys, List.countP_append, List.countP_cons,
                List.countP_nil, isDeploy] at h ⊢
              omega
            · simp [countDeploys, isDeploy, List.countP_cons, List.countP_nil]
          · have h := ih (attempt + 1) req (some (env.validate attempt)) (by omega)
            simp [countDeploys, List.countP_append, List.countP_cons,
              List.countP_nil, isDeploy] at h ⊢
            omega
      · simp [countDeploys, isDeploy, List.countP_cons, List.countP_nil]
    · cases lastVal <;> simp [countDeploys] <;> omega

/-- The provisioner is invoked at most once per permitted loop iteration. -/
theorem go_deploys_le (env : LoopEnv) (maxA : Nat) :
    ∀ fuel attempt req lastVal,
      countDeploys (go env maxA fuel attempt req lastVal).trace ≤ fuel := by
  intro fuel
  induction fuel with
  | zero =>
    intro attempt req lastVal
    cases lastVal <;> simp [go_zero, countDeploys]
  | succ fuel ih =>
    intro attempt req lastVal
    simp only [go]
    split
    · split
      · split
        · simp [countDeploys, isDeploy, List.countP_cons, List.countP_nil]
        · split
          · split
            · have h := ih (attempt + 1)
                { req with
                    configuration := (env.refine attempt).refined_config
                    refinement_notes := (env.refine attempt).notes }
                (some (env.validate attempt))
              simp [countDeploys, List.countP_append, List.countP_cons,
                List.countP_nil, isDeploy] at h ⊢
              omega
            · simp [countDeploys, isDeploy, List.countP_cons, List.countP_nil]
          · have h := ih (attempt + 1) req (some (env.validate attempt))
            simp [countDeploys, List.countP_append, List.countP_cons,
              List.countP_nil, isDeploy] at h ⊢
            omega
      · simp [countDeploys, isDeploy, List.countP_cons, List.countP_nil]
    · cases lastVal <;> simp [countDeploys]

/-- The refiner is only invoked on attempts strictly below `maxA`, hence at
most `maxA - attempt` times from attempt `attempt` on. -/
theorem go_refines_le (env : LoopEnv) (maxA : Nat) :
    ∀ fuel attempt req lastVal,
      countRefines (go env maxA fuel attempt req lastVal).trace ≤ maxA - attempt := by
  intro fuel
  induction fuel with
  | zero =>
    intro attempt req lastVal
    cases lastVal <;> simp [go_zero, countRefines]
  | succ fuel ih =>
    intro attempt req lastVal
    simp only [go]
    split <;> rename_i hle
    · split
      · split
        · simp [countRefines, isRefine, List.countP_cons, List.countP_nil]
        · split <;> rename_i hlt
          · split
            · have h := ih (attempt + 1)
                { req with
                    configuration := (env.refine attempt).refined_config
                    refinement_notes := (env.refine attempt).notes }
                (some (env.validate attempt))
              simp [countRefines, List.countP_append, List.countP_cons,
                List.countP_nil, isRefine] at h ⊢
              omega
            · simp [countRefines, isRefine, List.countP_cons, List.countP_nil]
              omega
          · have h := ih (attempt + 1) req (some (env.validate attempt))
            simp [countRefines, List.countP_append, List.countP_cons,
              List.countP_nil, isRefine] at h ⊢
            omega
      · simp [countRefines, isRefine, List.countP_cons, List.countP_nil]
    · cases lastVal <;> simp [countRefines]

/-- On the two `FAILED` exits that run the final block (attempt exhaustion and
the refinement-failure `break`), the returned body is `failedBody` built from
the validation result of the last attempt performed. -/
theorem go_failed_body (env : LoopEnv) (maxA : Nat) :
    ∀ fuel attempt req lastVal,
      (∀ v, lastVal = some v → v = env.validate (attempt - 1)) →
      (go env maxA fuel attempt req lastVal).exit = ExitKind.exhausted ∨
        (go env maxA fuel attempt req lastVal).exit = ExitKind.refineBreak →
      ∃ req₀,
        (go env maxA fuel attempt req lastVal).statusCode = 200 ∧
        (go env maxA fuel attempt req lastVal).body =
          some (failedBody maxA req₀
            (env.validate (go env maxA fuel attempt req lastVal).attemptsRun)) := by
  intro fuel
  induction fuel with
  | zero =>
    intro attempt req lastVal hlast _hexit
    cases hl : lastVal with
    | none => simp [go_zero, hl] at _hexit ⊢
    | some v =>
      refine ⟨req, ?_⟩
      have hv := hlast v hl
      simp [go_zero, hl, hv]
  | succ fuel ih =>
    intro attempt req lastVal hlast hexit
    simp only [go] at hexit ⊢
    split <;> rename_i h1
    · split <;> rename_i h2
      · split <;> rename_i h3
        · simp [h1, h2, h3] at hexit
        · split <;> rename_i h4
          · split <;> rename_i h5
            · simp only [if_pos h1, if_pos h2, if_neg h3, if_pos h4,
                if_pos h5] at hexit
              exact ih (attempt + 1)
                { req with
                    configuration := (env.refine attempt).refined_config
                    refinement_notes := (env.refine attempt).notes }
                (some (env.validate attempt))
                (by intro v hv; cases hv; simp) hexit
            · refine ⟨req, ?_⟩
              simp
          · simp only [if_pos h1, if_pos h2, if_neg h3, if_neg h4] at hexit
            exact ih (attempt + 1) req (some (env.validate attempt))
              (by intro v hv; cases hv; simp) hexit
      · simp [h1, h2] at hexit
    · cases hl : lastVal with
      | none => simp [h1, hl] at hexit
      | some v =>
        refine ⟨req, ?_⟩
        have hv := hlast v hl
        simp [h1, hv]

/-- C1 counterexample: when the refinement of attempt 1 fails, the `break` at
line 91 of `requirement_processor.py` jumps over the cleanup call at line 94,
so one provision-validate attempt completes but zero reclamation invocations
occur — refuting "attempts == reclamation calls from every exit path". -/
theorem c1_counterexample :
    countValidates (lambda_handler envRefineFail req0).trace = 1 ∧
    countCleanups (lambda_handler envRefineFail req0).trace = 0 := by decide

/-- C1 (amended): reclamation is invoked exactly once per completed
provision-validate attempt on the validation-success, retry and
attempt-exhaustion exits, but the refinement-failure exit skips the
reclamation of its final attempt (that attempt's validator ran with no
matching cleanup). -/
theorem c1_cleanup_per_attempt (env : LoopEnv) (req : Requirement) :
    countValidates (lambda_handler env req).trace =
      countCleanups (lambda_handler env req).trace +
        (if (lambda_handler env req).exit = ExitKind.refineBreak then 1 else 0) :=
  go_validates_cleanups env max_attempts max_attempts 1 req none

/-- C2 counterexample: a refinement failure on attempt 1 ends the run after a
single provision-validate attempt, yet the final block records
`test_attempts = 3` (`max_attempts`), not the number of attempts actually
performed. -/
theorem c2_counterexample :
    (lambda_handler envRefineFail req0).attemptsRun = 1 ∧
    countDeploys (lambda_handler envRefineFail req0).trace = 1 ∧
    ((lambda_handler envRefineFail req0).body.getD req0).test_attempts = some 3 := by
  decide

/-- C2 (amended): whenever the loop terminates a requirement as FAILED after
at least one validation (attempt exhaustion or the refinement-failure
`break`), it sets `validation_status = "FAILED"`, `validation_error` to the
last attempt's validation error when the validator supplied one (else the
default `"Maximum retry attempts exceeded"`), `last_test_details` to the last
attempt's validation detail, and `test_attempts` to `max_attempts` (3)
regardless of how many attempts were actually performed (`attemptsRun`, which
equals the number of provisioner invocations in the trace). -/
theorem c2_failed_terminal (env : LoopEnv) (req : Requirement)
    (hexit : (lambda_handler env req).exit = ExitKind.exhausted ∨
      (lambda_handler env req).exit = ExitKind.refineBreak) :
    ∃ b, (lambda_handler env req).statusCode = 200 ∧
      (lambda_handler env req).body = some b ∧
      b.validation_status = "FAILED" ∧
      b.validation_error =
        some ((env.validate (lambda_handler env req).attemptsRun).error.getD
          "Maximum retry attempts exceeded") ∧
      b.last_test_details =
        some (env.validate (lambda_handler env req).attemptsRun).details ∧
      b.test_attempts = some max_attempts ∧
      (lambda_handler env req).attemptsRun =
        countDeploys (lambda_handler env req).trace := by
  simp only [lambda_handler] at hexit ⊢
  obtain ⟨req₀, hsc, hbody⟩ :=
    go_failed_body env max_attempts max_attempts 1 req none
      (fun v hv => nomatch hv) hexit
  have hcnt := go_attemptsRun env max_attempts max_attempts 1 req none (le_refl 1)
  exact ⟨_, hsc, hbody, rfl, rfl, rfl, rfl, by omega⟩

/-- C2 witness: the concrete refinement-failure run satisfies the amended
FAILED-terminal contract. -/
theorem c2_witness :
    ∃ b, (lambda_handler envRefineFail req0).statusCode = 200 ∧
      (lambda_handler envRefineFail req0).body = some b ∧
      b.validation_status = "FAILED" ∧
      b.validation_error =
        some ((envRefineFail.validate
          (lambda_handler envRefineFail req0).attemptsRun).error.getD
          "Maximum retry attempts exceeded") ∧
      b.last_test_details =
        some (envRefineFail.validate
          (lambda_handler envRefineFail req0).attemptsRun).details ∧
      b.test_attempts = some max_attempts ∧
      (lambda_handler envRefineFail req0).attemptsRun =
        countDeploys (lambda_handler envRefineFail req0).trace :=
  c2_failed_terminal envRefineFail req0 (Or.inr (by decide))

/-- Once the attempt counter exceeds `maxA` the loop guard is false, so the
run can only end in the final block. -/
theorem go_exit_gt (env : LoopEnv) (maxA : Nat) :
    ∀ fuel attempt req lastVal, maxA < attempt →
      (go env maxA fuel attempt req lastVal).exit = ExitKind.exhausted ∨
      (go env maxA fuel attempt req lastVal).exit = ExitKind.noValidation := by
  intro fuel attempt req lastVal h
  have h' : ¬(attempt ≤ maxA) := by omega
  cases fuel <;> cases lastVal <;> simp [go_zero, go, h']

/-- On the validation-success exit, the returned body is marked `VALIDATED`
with `test_attempts` equal to the attempt at which validation succeeded and a
validation timestamp; that attempt's reclamation is in the trace, and the
refiner ran exactly once per earlier attempt. -/
theorem go_validated_body (env : LoopEnv) (maxA : Nat) :
    ∀ fuel attempt req lastVal,
      (go env maxA fuel attempt req lastVal).exit = ExitKind.validated →
      ∃ b,
        (go env maxA fuel attempt req lastVal).statusCode = 200 ∧
        (go env maxA fuel attempt req lastVal).body = some b ∧
        b.validation_status = "VALIDATED" ∧
        b.test_attempts = some (go env maxA fuel attempt req lastVal).attemptsRun ∧
        b.validation_timestamp = some nowTS ∧
        b.validation_details =
          some (env.validate (go env maxA fuel attempt req lastVal).attemptsRun).details ∧
        Event.cleanup (go env maxA fuel attempt req lastVal).attemptsRun true ∈
          (go env maxA fuel attempt req lastVal).trace ∧
        countRefines (go env maxA fuel attempt req lastVal).trace + attempt =
          (go env maxA fuel attempt req lastVal).attemptsRun ∧
        attempt ≤ (go env maxA fuel attempt req lastVal).attemptsRun := by
  intro fuel
  induction fuel with
  | zero =>
    intro attempt req lastVal hexit
    cases lastVal <;> simp [go_zero] at hexit
  | succ fuel ih =>
    intro attempt req lastVal hexit
    simp only [go] at hexit ⊢
    split <;> rename_i h1
    · split <;> rename_i h2
      · split <;> rename_i h3
        · refine ⟨_, rfl, rfl, rfl, rfl, rfl, rfl, ?_, ?_, le_refl _⟩
          · simp
          · simp [countRefines, isRefine, List.countP_cons, List.countP_nil]
        · split <;> rename_i h4
          · split <;> rename_i h5
            · simp only [if_pos h1, if_pos h2, if_neg h3, if_pos h4,
                if_pos h5] at hexit
              obtain ⟨b, hb1, hb2, hb3, hb4, hb5, hb6, hb7, hb8, hb9⟩ :=
                ih (attempt + 1)
                  { req with
                      configuration := (env.refine attempt).refined_config
                      refinement_notes := (env.refine attempt).notes }
                  (some (env.validate attempt)) hexit
              refine ⟨b, hb1, hb2, hb3, hb4, hb5, hb6, ?_, ?_,
                Nat.le_of_succ_le hb9⟩
              · simp [hb7]
              · simp [countRefines, List.countP_append, List.countP_cons,
                  List.countP_nil, isRefine]
                simp [countRefines] at hb8
                omega
            · simp only [if_pos h1, if_pos h2, if_neg h3, if_pos h4,
                if_neg h5] at hexit
              simp at hexit
          · simp only [if_pos h1, if_pos h2, if_neg h3, if_neg h4] at hexit
            rcases go_exit_gt env maxA fuel (attempt + 1) req
                (some (env.validate attempt)) (by omega) with hgt | hgt <;>
              rw [hgt] at hexit <;> simp at hexit
      · simp [h1, h2] at hexit
    · cases hl : lastVal <;> simp [h1, hl] at hexit

/-- C7: whenever validation succeeds on attempt `k`, the run returns 200 with
`validation_status = "VALIDATED"`, `test_attempts = k`, a validation
timestamp, the validation details, attempt `k`'s reclamation in the trace,
and exactly `k - 1` refiner invocations. -/
theorem c7_validated_exit (env : LoopEnv) (req : Requirement)
    (hexit : (lambda_handler env req).exit = ExitKind.validated) :
    ∃ b,
      (lambda_handler env req).statusCode = 200 ∧
      (lambda_handler env req).body = some b ∧
      b.validation_status = "VALIDATED" ∧
      b.test_attempts = some (lambda_handler env req).attemptsRun ∧
      b.validation_timestamp = some nowTS ∧
      b.validation_details =
        some (env.validate (lambda_handler env req).attemptsRun).details ∧
      Event.cleanup (lambda_handler env req).attemptsRun true ∈
        (lambda_handler env req).trace ∧
      countRefines (lambda_handler env req).trace + 1 =
        (lambda_handler env req).attemptsRun ∧
      1 ≤ (lambda_handler env req).attemptsRun := by
  simp only [lambda_handler] at hexit ⊢
  exact go_validated_body env max_attempts max_attempts 1 req none hexit

/-- Environment for the "fail twice, succeed on attempt 3" scenario:
deploys succeed, validation fails on attempts 1 and 2 and succeeds on
attempt 3, refinements succeed. -/
def envThirdTry : LoopEnv :=
  { deploy := fun _ => { success := true, error := none }
    validate := fun a =>
      if a < 3 then
        { success := false
          error := some "imds check failed"
          details := "token not required" }
      else { success := true, error := none, details := "all checks passed" }
    refine := fun _ =>
      { success := true, error := none, refined_config := "HttpTokens=required",
        notes := ["tightened metadata options"] } }

/-- C7 witness: in the concrete fail/fail/succeed run the requirement ends
VALIDATED with `test_attempts = 3` and exactly 2 refiner invocations. -/
theorem c7_witness :
    (lambda_handler envThirdTry req0).attemptsRun = 3 ∧
    countRefines (lambda_handler envThirdTry req0).trace = 2 ∧
    ∃ b,
      (lambda_handler envThirdTry req0).statusCode = 200 ∧
      (lambda_handler envThirdTry req0).body = some b ∧
      b.validation_status = "VALIDATED" ∧
      b.test_attempts = some (lambda_handler envThirdTry req0).attemptsRun ∧
      b.validation_timestamp = some nowTS ∧
      b.validation_details =
        some (envThirdTry.validate
          (lambda_handler envThirdTry req0).attemptsRun).details ∧
      Event.cleanup (lambda_handler envThirdTry req0).attemptsRun true ∈
        (lambda_handler envThirdTry req0).trace ∧
      countRefines (lambda_handler envThirdTry req0).trace + 1 =
        (lambda_handler envThirdTry req0).attemptsRun ∧
      1 ≤ (lambda_handler envThirdTry req0).attemptsRun :=
  ⟨by decide, by decide, c7_validated_exit envThirdTry req0 (by decide)⟩

/-- C4: for the code's attempt bound `max_attempts = 3`, every run invokes
the provisioner at most 3 times and the refiner at most 2 times. -/
theorem c4_invocation_bounds (env : LoopEnv) (req : Requirement) :
    countDeploys (lambda_handler env req).trace ≤ max_attempts ∧
    countRefines (lambda_handler env req).trace ≤ max_attempts - 1 :=
  ⟨go_deploys_le env max_attempts max_attempts 1 req none,
    go_refines_le env max_attempts max_attempts 1 req none⟩

/-- Environment for two consecutive successful refinements: deploys succeed,
every validation fails, refinements 1 and 2 succeed with distinct notes. -/
def envTwoRefines : LoopEnv :=
  { deploy := fun _ => { success := true, error := none }
    validate := fun _ =>
      { success := false, error := some "check failed", details := "d" }
    refine := fun a =>
      if a = 1 then
        { success := true
          error := none
          refined_config := "cfg1"
          notes := ["refinement note 1"] }
      else
        { success := true
          error := none
          refined_config := "cfg2"
          notes := ["refinement note 2"] } }

/-- C5 counterexample: after two successful refinements whose notes are
`["refinement note 1"]` and then `["refinement note 2"]`, the returned
requirement carries only `["refinement note 2"]` — line 88 of
`requirement_processor.py` assigns `refinement_notes` instead of appending,
so the earlier note is discarded and the sequence does not grow. -/
theorem c5_counterexample :
    ((lambda_handler envTwoRefines req0).body.getD req0).refinement_notes =
      ["refinement note 2"] := by decide

/-- C5 (amended): whenever refinement succeeds during a retry, the loop
replaces `requirement.configuration` with the refined configuration and
replaces `refinement_notes` with the latest refinement's notes; notes from
earlier refinements are discarded.  Stated for the run shape with failed
validations on attempts 1 and 2 and successful refinements on both: the
returned body carries exactly refinement 2's configuration and notes. -/
theorem c5_notes_replaced (env : LoopEnv) (req : Requirement)
    (hd : ∀ a, (env.deploy a).success = true)
    (hv1 : (env.validate 1).success = false)
    (hv2 : (env.validate 2).success = false)
    (hr1 : (env.refine 1).success = true)
    (hr2 : (env.refine 2).success = true) :
    ∃ b, (lambda_handler env req).body = some b ∧
      b.configuration = (env.refine 2).refined_config ∧
      b.refinement_notes = (env.refine 2).notes := by
  simp only [lambda_handler, max_attempts]
  simp [go, hd, hv1, hv2, hr1, hr2]
  split <;> exact ⟨_, rfl, rfl, rfl⟩

/-- C5 witness: the two-refinement environment satisfies the amended
replace-configuration-and-notes contract. -/
theorem c5_witness :
    ∃ b, (lambda_handler envTwoRefines req0).body = some b ∧
      b.configuration = (envTwoRefines.refine 2).refined_config ∧
      b.refinement_notes = (envTwoRefines.refine 2).notes :=
  c5_notes_replaced envTwoRefines req0 (fun _ => rfl) rfl rfl rfl rfl

/-- In any run, a provisioner invocation for attempt `k + 1` is preceded in
the trace by the (asynchronous) reclamation request for attempt `k`. -/
theorem go_cleanup_before_next_deploy (env : LoopEnv) (maxA : Nat) :
    ∀ fuel attempt req lastVal k, attempt ≤ k →
      Event.deploy (k + 1) ∈ (go env maxA fuel attempt req lastVal).trace →
      ∃ l₁ l₂, (go env maxA fuel attempt req lastVal).trace =
          l₁ ++ Event.deploy (k + 1) :: l₂ ∧ Event.cleanup k true ∈ l₁ := by
  intro fuel
  induction fuel with
  | zero =>
    intro attempt req lastVal k _hk hmem
    cases lastVal <;> simp [go_zero] at hmem
  | succ fuel ih =>
    intro attempt req lastVal k hk hmem
    simp only [go] at hmem ⊢
    split <;> rename_i h1
    · split <;> rename_i h2
      · split <;> rename_i h3
        · simp only [if_pos h1, if_pos h2, if_pos h3] at hmem
          simp at hmem
          omega
        · split <;> rename_i h4
          · split <;> rename_i h5
            · simp only [if_pos h1, if_pos h2, if_neg h3, if_pos h4,
                if_pos h5] at hmem
              simp at hmem
              rcases hmem with hmem | hmem
              · omega
              · rcases Nat.eq_or_lt_of_le hk with heq | hlt
                · obtain ⟨s, t, hst⟩ := List.append_of_mem hmem
                  refine ⟨[Event.deploy attempt, Event.validate attempt,
                    Event.refine attempt, Event.cleanup attempt true] ++ s, t, ?_, ?_⟩
                  · simp [hst]
                  · subst heq
                    simp
                · obtain ⟨s, t, hst, hcl⟩ :=
                    ih (attempt + 1)
                      { req with
                          configuration := (env.refine attempt).refined_config
                          refinement_notes := (env.refine attempt).notes }
                      (some (env.validate attempt)) k hlt hmem
                  refine ⟨[Event.deploy attempt, Event.validate attempt,
                    Event.refine attempt, Event.cleanup attempt true] ++ s, t, ?_, ?_⟩
                  · simp [hst]
                  · simp [hcl]
            · simp only [if_pos h1, if_pos h2, if_neg h3, if_pos h4,
                if_neg h5] at hmem
              simp at hmem
              omega
          · simp only [if_pos h1, if_pos h2, if_neg h3, if_neg h4] at hmem
            simp at hmem
            rcases hmem with hmem | hmem
            · omega
            · rcases Nat.eq_or_lt_of_le hk with heq | hlt
              · obtain ⟨s, t, hst⟩ := List.append_of_mem hmem
                refine ⟨[Event.deploy attempt, Event.validate attempt,
                  Event.cleanup attempt true] ++ s, t, ?_, ?_⟩
                · simp [hst]
                · subst heq
                  simp
              · obtain ⟨s, t, hst, hcl⟩ :=
                  ih (attempt + 1) req (some (env.validate attempt)) k hlt hmem
                refine ⟨[Event.deploy attempt, Event.validate attempt,
                  Event.cleanup attempt true] ++ s, t, ?_, ?_⟩
                · simp [hst]
                · simp [hcl]
      · simp only [if_pos h1, if_neg h2] at hmem
        simp at hmem
        omega
    · cases hl : lastVal <;> simp [h1, hl] at hmem

/-- Environment where validation succeeds immediately. -/
def envOk : LoopEnv :=
  { deploy := fun _ => { success := true, error := none }
    validate := fun _ => { success := true, error := none, details := "ok" }
    refine := fun _ =>
      { success := false, error := none, refined_config := "", notes := [] } }

/-- C6 counterexample: "provisioning strictly follows the completion of the
previous attempt's reclamation" would require the loop to block on every
reclamation, i.e. every cleanup invocation would use the synchronous
`RequestResponse` type.  In fact every cleanup in every trace carries the
asynchronous `Event` invocation type (`async = true`): the loop
fires-and-forgets the reclamation and never observes its completion. -/
theorem c6_counterexample :
    ¬ (∀ (env : LoopEnv) (req : Requirement) (k : Nat) (b : Bool),
        Event.cleanup k b ∈ (lambda_handler env req).trace → b = false) := by
  intro h
  have hb := h envOk req0 1 true (by decide)
  simp at hb

/-- C6 (amended): within one requirement, attempt `k + 1`'s provisioning
request is issued only after attempt `k`'s reclamation request has been
issued (the cleanup invocation precedes the next deploy in the trace); the
reclamation itself is dispatched asynchronously, so its completion is not
awaited. -/
theorem c6_cleanup_precedes_next_deploy (env : LoopEnv) (req : Requirement)
    (k : Nat) (hk : 1 ≤ k)
    (hmem : Event.deploy (k + 1) ∈ (lambda_handler env req).trace) :
    ∃ l₁ l₂, (lambda_handler env req).trace =
        l₁ ++ Event.deploy (k + 1) :: l₂ ∧ Event.cleanup k true ∈ l₁ :=
  go_cleanup_before_next_deploy env max_attempts max_attempts 1 req none k hk hmem

/-- C6 witness: in the fail/fail/succeed run, attempt 2's provisioning is
preceded by attempt 1's reclamation request. -/
theorem c6_witness :
    ∃ l₁ l₂, (lambda_handler envThirdTry req0).trace =
        l₁ ++ Event.deploy 2 :: l₂ ∧ Event.cleanup 1 true ∈ l₁ :=
  c6_cleanup_precedes_next_deploy envThirdTry req0 1 (le_refl 1) (by decide)

end RequirementProcessor

namespace Orchestrator

/-- Number of requirements in a list whose `validation_status` is
`"VALIDATED"`. -/
def validated_count (reqs : List Requirement) : Nat :=
  (reqs.filter fun r => r.validation_status = "VALIDATED").length

/-- Number of requirements in a list whose `validation_status` is
`"FAILED"`. -/
def failed_count (reqs : List Requirement) : Nat :=
  (reqs.filter fun r => r.validation_status = "FAILED").length

/-- Round `num / den` to the nearest integer, ties to even — the rounding of
Python's `format(x, '.1f')`.  (The Python code computes
`validated/total*100` in binary floating point before formatting; the
embedding computes the same quotient exactly.) -/
def roundHalfEven (num den : Nat) : Nat :=
  if 2 * (num % den) < den then num / den
  else if den < 2 * (num % den) then num / den + 1
  else if (num / den) % 2 = 0 then num / den else num / den + 1

/-- The `f"{(validated_count/len(requirements)*100):.1f}%"` rendering:
the percentage in tenths, rounded to the nearest tenth, printed with one
digit after the decimal point and a trailing percent sign. -/
def success_rate_string (validated total : Nat) : String :=
  let tenths := roundHalfEven (validated * 1000) total
  toString (tenths / 10) ++ "." ++ toString (tenths % 10) ++ "%"

/-- The report built by `generate_final_report` in
`security_baseline_orchestrator.py`. -/
structure Report where
  session_id : String
  service_name : String
  timestamp : String
  total_requirements : Nat
  validated : Nat
  failed : Nat
  success_rate : String
  recommendations : List String
  next_steps : List String
  deriving Repr, DecidableEq

/-- `generate_final_report`: counts, the success rate (the literal `"0%"`
for an empty requirement list), and the result-dependent recommendations. -/
def generate_final_report (service_name session_id : String)
    (requirements : List Requirement) : Report :=
  let vc := validated_count requirements
  let fc := failed_count requirements
  { session_id := session_id
    service_name := service_name
    timestamp := nowTS
    total_requirements := requirements.length
    validated := vc
    failed := fc
    success_rate :=
      if requirements = [] then "0%"
      else success_rate_string vc requirements.length
    recommendations :=
      (if 0 < fc then
        ["Review and manually validate " ++ toString fc ++ " failed requirements"]
      else []) ++
      (if 0 < vc then
        ["Deploy " ++ toString vc ++ " validated configurations to production"]
      else [])
    next_steps :=
      ["Review validation logs for detailed test results",
        "Consider implementing validated configurations in your infrastructure"] }

/-- Payload returned by one `requirement_processor` invocation, as read by
the orchestrator: `statusCode`, the `body` key (absent on the processor's
500 path) and the `error` key. -/
structure ProcResult where
  statusCode : Nat
  body : Option Requirement
  error : Option String
  deriving Repr, DecidableEq

/-- The orchestrator's handling of a non-200 processor response (lines
79-81): mark the original requirement FAILED and record the error. -/
def markFailed (req : Requirement) (r : ProcResult) : Requirement :=
  { req with
    validation_status := "FAILED"
    validation_error := some (r.error.getD "Unknown error") }

/-- The `for req_index, requirement in enumerate(requirements)` loop:
returns the accumulated `validated_requirements` list (or the message of an
exception that aborts the loop) together with the number of processor
invocations actually issued.  The only exception modelled is the
`result['body']` lookup on a 200 response that lacks a body. -/
def processFrom (proc : Nat → ProcResult) :
    Nat → List Requirement → Except String (List Requirement) × Nat
  | _, [] => (Except.ok [], 0)
  | idx, req :: rest =>
    let r := proc idx
    if r.statusCode = 200 then
      match r.body with
      | some b =>
        let p := processFrom proc (idx + 1) rest
        (p.1.map fun l => b :: l, p.2 + 1)
      | none => (Except.error "KeyError: body", 1)
    else
      let p := processFrom proc (idx + 1) rest
      (p.1.map fun l => markFailed req r :: l, p.2 + 1)

/-- Oracle inputs of one orchestrator run: the requirement list produced by
generation and the processor response for each requirement index. -/
structure OrchEnv where
  service_name : String := "EC2"
  requirements : List Requirement
  processor : Nat → ProcResult

/-- The 200 body returned by the orchestrator. -/
structure OrchBody where
  session_id : String
  service_name : String
  total_requirements : Nat
  validated_requirements : Nat
  failed_requirements : Nat
  report : Report
  requirements_details : List Requirement
  deriving Repr, DecidableEq

/-- Result of one orchestrator run, with instrumentation: the number of
processor invocations issued (each of which is what triggers provisioning)
and whether the final session-wide cleanup sweep was triggered. -/
structure OrchResult where
  statusCode : Nat
  okBody : Option OrchBody
  errorBody : Option String
  processorCalls : Nat
  sweepIssued : Bool
  deriving Repr, DecidableEq

/-- `lambda_handler` of `security_baseline_orchestrator.py`: an empty
requirement list raises (caught by the outer handler, which returns a body
holding only the error); otherwise each requirement is processed in order,
the report is built, the async session sweep is triggered and the 200 body
is returned. -/
def lambda_handler (env : OrchEnv) : OrchResult :=
  let session_id := env.service_name ++ "_" ++ nowTS
  if env.requirements = [] then
    { statusCode := 500, okBody := none
      errorBody := some "Failed to generate security requirements"
      processorCalls := 0, sweepIssued := false }
  else
    match processFrom env.processor 0 env.requirements with
    | (Except.error msg, n) =>
      { statusCode := 500, okBody := none, errorBody := some msg
        processorCalls := n, sweepIssued := false }
    | (Except.ok validated_requirements, n) =>
      { statusCode := 200
        okBody := some
          { session_id := session_id
            service_name := env.service_name
            total_requirements := env.requirements.length
            validated_requirements := validated_count validated_requirements
            failed_requirements := failed_count validated_requirements
            report := generate_final_report env.service_name session_id
              validated_requirements
            requirements_details := validated_requirements }
        errorBody := none
        processorCalls := n
        sweepIssued := true }

/-- When every 200 processor response carries a body, the processing loop
finishes all requirements: it issues exactly one processor call per
requirement and produces one detail entry per requirement — the processor's
body on a 200 response, the original requirement marked FAILED otherwise. -/
theorem processFrom_ok (proc : Nat → ProcResult)
    (hbody : ∀ j, (proc j).statusCode = 200 → (proc j).body ≠ none) :
    ∀ (reqs : List Requirement) (idx : Nat),
      ∃ l, processFrom proc idx reqs = (Except.ok l, reqs.length) ∧
        l.length = reqs.length ∧
        ∀ j req, reqs[j]? = some req →
          ((proc (idx + j)).statusCode = 200 →
            l[j]? = (proc (idx + j)).body) ∧
          ((proc (idx + j)).statusCode ≠ 200 →
            l[j]? = some (markFailed req (proc (idx + j)))) := by
  intro reqs
  induction reqs with
  | nil =>
    intro idx
    refine ⟨[], rfl, rfl, ?_⟩
    intro j req hj
    simp at hj
  | cons req rest ih =>
    intro idx
    obtain ⟨l, hpf, hlen, hidx⟩ := ih (idx + 1)
    by_cases h200 : (proc idx).statusCode = 200
    · obtain ⟨b, hb⟩ := Option.ne_none_iff_exists'.mp (hbody idx h200)
      refine ⟨b :: l, ?_, by simp [hlen], ?_⟩
      · simp [processFrom, h200, hb, hpf, Except.map]
      · intro j r hj
        cases j with
        | zero =>
          simp at hj
          subst hj
          constructor
          · intro _
            simp [hb]
          · intro hne
            exact absurd h200 hne
        | succ j =>
          simp at hj
          have h := hidx j r hj
          have harith : idx + (j + 1) = idx + 1 + j := by omega
          rw [harith]
          simpa using h
    · refine ⟨markFailed req (proc idx) :: l, ?_, by simp [hlen], ?_⟩
      · simp [processFrom, h200, hpf, Except.map]
      · intro j r hj
        cases j with
        | zero =>
          simp at hj
          subst hj
          constructor
          · intro h200'
            exact absurd h200' h200
          · intro _
            simp
        | succ j =>
          simp at hj
          have h := hidx j r hj
          have harith : idx + (j + 1) = idx + 1 + j := by omega
          rw [harith]
          simpa using h

/-- C3: when the requirement list is non-empty and every 200 processor
response carries a body, the orchestrator returns 200 with a final report,
one detail entry per requirement, and every requirement whose processor
invocation came back non-200 (the processor converts any unhandled fault
into its 500 response) is recorded as FAILED with its error while the
remaining requirements are still processed — no per-requirement fault aborts
the session. -/
theorem c3_fault_isolation (env : OrchEnv)
    (hne : env.requirements ≠ [])
    (hbody : ∀ j, (env.processor j).statusCode = 200 →
      (env.processor j).body ≠ none) :
    ∃ out, (lambda_handler env).statusCode = 200 ∧
      (lambda_handler env).okBody = some out ∧
      (lambda_handler env).processorCalls = env.requirements.length ∧
      out.requirements_details.length = env.requirements.length ∧
      out.report = generate_final_report env.service_name
        (env.service_name ++ "_" ++ nowTS) out.requirements_details ∧
      ∀ j req, env.requirements[j]? = some req →
        (env.processor j).statusCode ≠ 200 →
        out.requirements_details[j]? =
          some (markFailed req (env.processor j)) := by
  obtain ⟨l, hpf, hlen, hidx⟩ := processFrom_ok env.processor hbody env.requirements 0
  refine ⟨{ session_id := env.service_name ++ "_" ++ nowTS
            service_name := env.service_name
            total_requirements := env.requirements.length
            validated_requirements := validated_count l
            failed_requirements := failed_count l
            report := generate_final_report env.service_name
              (env.service_name ++ "_" ++ nowTS) l
            requirements_details := l }, ?_, ?_, ?_, ?_, rfl, ?_⟩
  · simp [lambda_handler, hne, hpf]
  · simp [lambda_handler, hne, hpf]
  · simp [lambda_handler, hne, hpf]
  · exact hlen
  · intro j req hj hne200
    have h := (hidx j req hj).2
    simp only [Nat.zero_add] at h
    exact h hne200

/-- A VALIDATED requirement (for concrete report scenarios). -/
def vreq : Requirement :=
  { req0 with validation_status := "VALIDATED" }

/-- A FAILED requirement (for concrete report scenarios). -/
def freq : Requirement :=
  { req0 with validation_status := "FAILED" }

/-- Concrete orchestrator environment: two requirements; the processor
succeeds on index 0 and faults (500 with an error) on index 1. -/
def envOneFault : OrchEnv :=
  { requirements := [req0, req0]
    processor := fun j =>
      if j = 0 then { statusCode := 200, body := some vreq, error := none }
      else
        { statusCode := 500
          body := none
          error := some "Task timed out after 300 seconds" } }

/-- C3 witness: with one faulting processor invocation out of two, the run
still returns 200, issues both processor calls, produces a report, and
records the faulted requirement as FAILED with its error. -/
theorem c3_witness :
    ∃ out, (lambda_handler envOneFault).statusCode = 200 ∧
      (lambda_handler envOneFault).okBody = some out ∧
      (lambda_handler envOneFault).processorCalls =
        envOneFault.requirements.length ∧
      out.requirements_details.length = envOneFault.requirements.length ∧
      out.report = generate_final_report envOneFault.service_name
        (envOneFault.service_name ++ "_" ++ nowTS) out.requirements_details ∧
      ∀ j req, envOneFault.requirements[j]? = some req →
        (envOneFault.processor j).statusCode ≠ 200 →
        out.requirements_details[j]? =
          some (markFailed req (envOneFault.processor j)) :=
  c3_fault_isolation envOneFault (by decide)
    (by
      intro j h200
      by_cases hj : j = 0 <;> simp [envOneFault, hj] at h200 ⊢)

/-- Concrete orchestrator environment in which generation returned zero
requirements. -/
def envNoReqs : OrchEnv :=
  { requirements := []
    processor := fun _ => { statusCode := 200, body := some vreq, error := none } }

/-- C8: if requirement generation returns zero requirements, the run aborts
with the run-level error, the returned body consists of the error alone, no
processor invocation (hence no provisioning) occurs, and no sweep runs. -/
theorem c8_zero_requirements (env : OrchEnv)
    (h : env.requirements = []) :
    (lambda_handler env).statusCode = 500 ∧
    (lambda_handler env).errorBody =
      some "Failed to generate security requirements" ∧
    (lambda_handler env).okBody = none ∧
    (lambda_handler env).processorCalls = 0 := by
  simp [lambda_handler, h]

/-- C8 witness: the concrete zero-requirement run aborts with only the error
and zero processor calls. -/
theorem c8_witness :
    (lambda_handler envNoReqs).statusCode = 500 ∧
    (lambda_handler envNoReqs).errorBody =
      some "Failed to generate security requirements" ∧
    (lambda_handler envNoReqs).okBody = none ∧
    (lambda_handler envNoReqs).processorCalls = 0 :=
  c8_zero_requirements envNoReqs rfl

/-- `roundHalfEven num den` differs from the exact quotient `num / den` by
at most one half: `|round - num/den| ≤ 1/2`, stated multiplied out over the
naturals. -/
theorem roundHalfEven_near (num den : Nat) (hden : 0 < den) :
    2 * roundHalfEven num den * den ≤ 2 * num + den ∧
    2 * num ≤ 2 * roundHalfEven num den * den + den := by
  have h1 : den * (num / den) + num % den = num := Nat.div_add_mod num den
  have h2 : num % den < den := Nat.mod_lt _ hden
  have e1 : 2 * (num / den) * den = 2 * (den * (num / den)) := by ring
  have e2 : 2 * (num / den + 1) * den = 2 * (den * (num / den)) + 2 * den := by
    ring
  unfold roundHalfEven
  generalize hm : den * (num / den) = m at h1 e1 e2
  split <;> rename_i c1
  · rw [e1]; omega
  · split <;> rename_i c2
    · rw [e2]; omega
    · split <;> rename_i c3
      · rw [e1]; omega
      · rw [e2]; omega

/-- Five requirements of which exactly two are VALIDATED. -/
def sample5 : List Requirement := [vreq, vreq, freq, freq, freq]

set_option maxRecDepth 8000 in
/-- C10: for a non-empty requirement list the report's `success_rate` is the
ratio validated/total rendered as a percentage with one decimal place — the
printed value in tenths of a percent is within half a tenth of the exact
ratio; 2 validated of 5 total renders as `"40.0%"`; an empty list renders
the literal `"0%"`. -/
theorem c10_success_rate :
    (∀ (sn sid : String) (reqs : List Requirement), reqs ≠ [] →
      ∃ tenths,
        (generate_final_report sn sid reqs).success_rate =
          toString (tenths / 10) ++ "." ++ toString (tenths % 10) ++ "%" ∧
        2 * tenths * reqs.length ≤ 2 * (validated_count reqs * 1000) + reqs.length ∧
        2 * (validated_count reqs * 1000) ≤ 2 * tenths * reqs.length + reqs.length) ∧
    (∀ sn sid, (generate_final_report sn sid []).success_rate = "0%") ∧
    (generate_final_report "EC2" "EC2_session" sample5).success_rate = "40.0%" := by
  refine ⟨?_, fun sn sid => rfl, by decide⟩
  intro sn sid reqs hne
  refine ⟨roundHalfEven (validated_count reqs * 1000) reqs.length, ?_, ?_, ?_⟩
  · simp [generate_final_report, success_rate_string, hne]
  · exact (roundHalfEven_near (validated_count reqs * 1000) reqs.length
      (by cases reqs with
        | nil => exact absurd rfl hne
        | cons a l => simp)).1
  · exact (roundHalfEven_near (validated_count reqs * 1000) reqs.length
      (by cases reqs with
        | nil => exact absurd rfl hne
        | cons a l => simp)).2

/-- C10 witness: the general one-decimal-place bound instantiated at the
concrete 2-of-5 list. -/
theorem c10_witness :
    ∃ tenths,
      (generate_final_report "EC2" "EC2_session" sample5).success_rate =
        toString (tenths / 10) ++ "." ++ toString (tenths % 10) ++ "%" ∧
      2 * tenths * sample5.length ≤
        2 * (validated_count sample5 * 1000) + sample5.length ∧
      2 * (validated_count sample5 * 1000) ≤
        2 * tenths * sample5.length + sample5.length :=
  c10_success_rate.1 "EC2" "EC2_session" sample5 (by decide)

end Orchestrator

namespace ResourceCleanup

/-- One entry of `cleanup_results['cleaned_resources']` in
`resource_cleanup.py` (`type`/`id`/`action` keys). -/
structure CleanedResource where
  rtype : String
  rid : String
  action : String
  deriving Repr, DecidableEq

/-- Outcome of one boto3 deletion call.  `notFound` is the exception raised
when the resource is already absent (e.g. `InvalidInstanceID.NotFound`);
`raised` is any other exception; both are Python exceptions, distinguished
here only so the specification's not-found case can be stated. -/
inductive DeleteOutcome where
  | ok
  | notFound (msg : String)
  | raised (msg : String)
  deriving Repr, DecidableEq

/-- The exception text a deletion outcome raises, if any.  The source's
`except Exception as e` sees exactly this: `notFound` and `raised` are
indistinguishable to it. -/
def DeleteOutcome.exc : DeleteOutcome → Option String
  | .ok => none
  | .notFound m => some m
  | .raised m => some m

/-- The `resource_ids` dict passed to `cleanup_specific_resources`. -/
structure ResourceIds where
  instance_id : Option String := none
  security_group_id : Option String := none
  vpc_id : Option String := none
  deriving Repr, DecidableEq

/-- Result of `cleanup_vpc_resources` (which returns its errors in a list
rather than raising). -/
structure VpcCleanupResult where
  success : Bool
  resources : List CleanedResource
  errors : List String
  deriving Repr, DecidableEq

/-- Oracle for the cloud calls issued by `cleanup_specific_resources`. -/
structure Ec2Env where
  terminate_instances : DeleteOutcome
  delete_security_group : DeleteOutcome
  vpc_cleanup : VpcCleanupResult
  deriving Repr, DecidableEq

/-- The `cleanup_results` dict returned by `cleanup_specific_resources`. -/
structure CleanupResults where
  cleaned_resources : List CleanedResource
  errors : List String
  deriving Repr, DecidableEq

/-- `cleanup_specific_resources`: terminate the instance (any exception is
appended to `errors`), wait for termination (result-neutral polling), delete
the security group (same per-step handling), then clean the VPC via
`cleanup_vpc_resources`, merging its resources or errors.  Each step runs
regardless of earlier steps' failures and the function always returns its
results dict — nothing escalates. -/
def cleanup_specific_resources (env : Ec2Env) (ids : ResourceIds) :
    CleanupResults :=
  let s0 : List CleanedResource × List String := ([], [])
  let s1 :=
    match ids.instance_id with
    | none => s0
    | some iid =>
      match DeleteOutcome.exc env.terminate_instances with
      | none =>
        (s0.1 ++ [CleanedResource.mk "EC2 Instance" iid "terminated"], s0.2)
      | some m =>
        (s0.1, s0.2 ++ ["Failed to terminate instance " ++ iid ++ ": " ++ m])
  let s2 :=
    match ids.security_group_id with
    | none => s1
    | some sg =>
      match DeleteOutcome.exc env.delete_security_group with
      | none =>
        (s1.1 ++ [CleanedResource.mk "Security Group" sg "deleted"], s1.2)
      | some m =>
        (s1.1, s1.2 ++ ["Failed to delete security group " ++ sg ++ ": " ++ m])
  let s3 :=
    match ids.vpc_id with
    | none => s2
    | some _ =>
      if env.vpc_cleanup.success then (s2.1 ++ env.vpc_cleanup.resources, s2.2)
      else (s2.1, s2.2 ++ env.vpc_cleanup.errors)
  { cleaned_resources := s3.1, errors := s3.2 }

/-- Environment in which the instance is already gone (the termination call
raises the not-found exception) while the other deletions succeed. -/
def envNotFound : Ec2Env :=
  { terminate_instances :=
      DeleteOutcome.notFound "An error occurred (InvalidInstanceID.NotFound)"
    delete_security_group := DeleteOutcome.ok
    vpc_cleanup := { success := true, resources := [], errors := [] } }

/-- Resource ids naming an instance and a security group. -/
def idsBoth : ResourceIds :=
  { instance_id := some "i-0abc"
    security_group_id := some "sg-0abc" }

/-- C9 counterexample: a deletion that finds the resource already absent is
NOT treated as silent success — the not-found exception is recorded in
`errors` exactly like any other failure (the source has no special case for
it), although the remaining steps do still run. -/
theorem c9_counterexample :
    (cleanup_specific_resources envNotFound idsBoth).errors =
      ["Failed to terminate instance i-0abc: An error occurred (InvalidInstanceID.NotFound)"] ∧
    (cleanup_specific_resources envNotFound idsBoth).cleaned_resources =
      [{ rtype := "Security Group", rid := "sg-0abc", action := "deleted" }] := by
  decide

/-- Errors the instance-termination step of `cleanup_specific_resources`
contributes: the exception text of the terminate call (not-found included,
since the source's `except Exception` has no special case) when an instance
id was supplied, nothing otherwise. -/
def instance_step_errors (env : Ec2Env) (ids : ResourceIds) : List String :=
  match ids.instance_id, DeleteOutcome.exc env.terminate_instances with
  | some iid, some m => ["Failed to terminate instance " ++ iid ++ ": " ++ m]
  | _, _ => []

/-- Cleaned entries the instance-termination step contributes. -/
def instance_step_cleaned (env : Ec2Env) (ids : ResourceIds) :
    List CleanedResource :=
  match ids.instance_id, DeleteOutcome.exc env.terminate_instances with
  | some iid, none => [CleanedResource.mk "EC2 Instance" iid "terminated"]
  | _, _ => []

/-- Errors the security-group step contributes. -/
def sg_step_errors (env : Ec2Env) (ids : ResourceIds) : List String :=
  match ids.security_group_id, DeleteOutcome.exc env.delete_security_group with
  | some sg, some m => ["Failed to delete security group " ++ sg ++ ": " ++ m]
  | _, _ => []

/-- Cleaned entries the security-group step contributes. -/
def sg_step_cleaned (env : Ec2Env) (ids : ResourceIds) : List CleanedResource :=
  match ids.security_group_id, DeleteOutcome.exc env.delete_security_group with
  | some sg, none => [CleanedResource.mk "Security Group" sg "deleted"]
  | _, _ => []

/-- Errors the VPC step contributes: `cleanup_vpc_resources`' internal error
list is merged only when the VPC deletion ultimately failed
(`success=False`); when the VPC delete succeeds, lines 146-149 of the source
take the success branch and the sub-step errors are discarded. -/
def vpc_step_errors (env : Ec2Env) (ids : ResourceIds) : List String :=
  match ids.vpc_id with
  | none => []
  | some _ => if env.vpc_cleanup.success then [] else env.vpc_cleanup.errors

/-- Cleaned entries the VPC step contributes. -/
def vpc_step_cleaned (env : Ec2Env) (ids : ResourceIds) : List CleanedResource :=
  match ids.vpc_id with
  | none => []
  | some _ => if env.vpc_cleanup.success then env.vpc_cleanup.resources else []

/-- Results dict of `cleanup_ec2_resources_by_session` (the session-tag
sweep), with `(id, action)` entries. -/
structure SweepResults where
  instances : List (String × String)
  security_groups : List (String × String)
  vpcs : List (String × String)
  errors : List String
  deriving Repr, DecidableEq

/-- Oracle for the sweep's cloud calls.  `instance_phase` is the
describe/terminate/wait block of lines 168-189: `ok` returns the ids of the
session-tagged instances that were found and batch-terminated, `error` an
exception raised anywhere in that block (e.g. by `terminate_instances`).
`sg_phase` is `describe_security_groups` (the listed pairs are the
session-tagged non-default groups with each one's deletion outcome);
`vpc_phase` is `describe_vpcs` (the session-tagged non-default VPCs with
each one's `cleanup_vpc_resources` result). -/
structure SweepEnv where
  instance_phase : Except String (List String)
  sg_phase : Except String (List (String × DeleteOutcome))
  vpc_phase : Except String (List (String × VpcCleanupResult))

/-- The per-security-group loop of the sweep (lines 196-202): each deletion
is tried on its own; a success appends an entry, an exception appends an
error, and the loop continues either way. -/
def sweep_sg_fold :
    List (String × DeleteOutcome) → List (String × String) × List String
  | [] => ([], [])
  | p :: rest =>
    let acc := sweep_sg_fold rest
    match DeleteOutcome.exc p.2 with
    | none => ((p.1, "deleted") :: acc.1, acc.2)
    | some m =>
      (acc.1, ("Failed to delete security group " ++ p.1 ++ ": " ++ m) :: acc.2)

/-- The per-VPC loop of the sweep (lines 209-215): a successful
`cleanup_vpc_resources` appends a `deleted` entry (its internal errors are
discarded, as in `cleanup_specific_resources`); a failed one extends the
error list; the loop continues either way. -/
def sweep_vpc_fold :
    List (String × VpcCleanupResult) → List (String × String) × List String
  | [] => ([], [])
  | p :: rest =>
    let acc := sweep_vpc_fold rest
    if p.2.success then ((p.1, "deleted") :: acc.1, acc.2)
    else (acc.1, p.2.errors ++ acc.2)

/-- `cleanup_ec2_resources_by_session`: one `try` wraps the whole function,
so an exception in the instance phase (or in either describe call) jumps to
the outer `except`, which appends the message and returns the partial
results — recorded and never escalated, but the later steps are skipped. -/
def cleanup_ec2_resources_by_session (env : SweepEnv) : SweepResults :=
  match env.instance_phase with
  | Except.error m =>
    { instances := [], security_groups := [], vpcs := [], errors := [m] }
  | Except.ok iids =>
    let instRes := iids.map fun i => (i, "terminated")
    match env.sg_phase with
    | Except.error m =>
      { instances := instRes, security_groups := [], vpcs := [], errors := [m] }
    | Except.ok sgs =>
      let sgr := sweep_sg_fold sgs
      match env.vpc_phase with
      | Except.error m =>
        { instances := instRes, security_groups := sgr.1, vpcs := []
          errors := sgr.2 ++ [m] }
      | Except.ok vpcs =>
        let vr := sweep_vpc_fold vpcs
        { instances := instRes, security_groups := sgr.1, vpcs := vr.1
          errors := sgr.2 ++ vr.2 }

/-- Security groups the sweep's SG loop deletes successfully, in order. -/
def sg_deleted : List (String × DeleteOutcome) → List (String × String)
  | [] => []
  | p :: rest =>
    (match DeleteOutcome.exc p.2 with
      | none => [(p.1, "deleted")]
      | some _ => []) ++ sg_deleted rest

/-- Error messages the sweep's SG loop records, one per failed deletion, in
order. -/
def sg_delete_errors : List (String × DeleteOutcome) → List String
  | [] => []
  | p :: rest =>
    (match DeleteOutcome.exc p.2 with
      | none => []
      | some m => ["Failed to delete security group " ++ p.1 ++ ": " ++ m]) ++
      sg_delete_errors rest

/-- VPCs the sweep's VPC loop deletes successfully, in order. -/
def vpc_deleted : List (String × VpcCleanupResult) → List (String × String)
  | [] => []
  | p :: rest =>
    (if p.2.success then [(p.1, "deleted")] else []) ++ vpc_deleted rest

/-- Errors the sweep's VPC loop records: the error lists of the failed VPC
cleanups, in order (successful ones contribute nothing — their internal
errors are dropped). -/
def vpc_failed_errors : List (String × VpcCleanupResult) → List String
  | [] => []
  | p :: rest =>
    (if p.2.success then [] else p.2.errors) ++ vpc_failed_errors rest

/-- The one-pass SG loop equals its per-item flattening: each group's
outcome is recorded independently of every other group's. -/
theorem sweep_sg_fold_eq (sgs : List (String × DeleteOutcome)) :
    sweep_sg_fold sgs = (sg_deleted sgs, sg_delete_errors sgs) := by
  induction sgs with
  | nil => rfl
  | cons p rest ih =>
    cases h : DeleteOutcome.exc p.2 <;>
      simp [sweep_sg_fold, sg_deleted, sg_delete_errors, h, ih]

/-- The one-pass VPC loop equals its per-item flattening: each VPC's
outcome is recorded independently of every other VPC's. -/
theorem sweep_vpc_fold_eq (vpcs : List (String × VpcCleanupResult)) :
    sweep_vpc_fold vpcs = (vpc_deleted vpcs, vpc_failed_errors vpcs) := by
  induction vpcs with
  | nil => rfl
  | cons p rest ih =>
    cases h : p.2.success <;>
      simp [sweep_vpc_fold, vpc_deleted, vpc_failed_errors, h, ih]

/-- C9 (amended): the reclaimer records rather than escalates, but with the
following exact behaviour.  (1) In `cleanup_specific_resources` the three
steps are independent — the results are the concatenation of each step's own
contribution, so an error in one step (a not-found exception included, which
is recorded like any other error) never prevents the later steps from
running or being recorded; the only errors not recorded are
`cleanup_vpc_resources`' sub-step errors when the VPC delete itself
succeeds, which the success branch discards.  (2) In the session sweep
`cleanup_ec2_resources_by_session`, an exception in the instance
discovery/termination phase is recorded and returned — never raised — but it
does abort the security-group and VPC steps; (3) when the phases themselves
succeed, each per-security-group and per-VPC failure is recorded while every
other group and VPC is still processed (failed VPCs contribute their error
lists; successful ones contribute their entry and drop internal errors). -/
theorem c9_continue_on_error :
    (∀ (env : Ec2Env) (ids : ResourceIds),
      (cleanup_specific_resources env ids).errors =
        instance_step_errors env ids ++ sg_step_errors env ids ++
          vpc_step_errors env ids ∧
      (cleanup_specific_resources env ids).cleaned_resources =
        instance_step_cleaned env ids ++ sg_step_cleaned env ids ++
          vpc_step_cleaned env ids) ∧
    (∀ (m : String) (sgp : Except String (List (String × DeleteOutcome)))
        (vpp : Except String (List (String × VpcCleanupResult))),
      cleanup_ec2_resources_by_session ⟨Except.error m, sgp, vpp⟩ =
        { instances := [], security_groups := [], vpcs := [], errors := [m] }) ∧
    (∀ (iids : List String) (sgs : List (String × DeleteOutcome))
        (vpcs : List (String × VpcCleanupResult)),
      cleanup_ec2_resources_by_session
          ⟨Except.ok iids, Except.ok sgs, Except.ok vpcs⟩ =
        { instances := iids.map fun i => (i, "terminated")
          security_groups := sg_deleted sgs
          vpcs := vpc_deleted vpcs
          errors := sg_delete_errors sgs ++ vpc_failed_errors vpcs }) := by
  refine ⟨?_, ?_, ?_⟩
  · intro env ids
    rcases hin : ids.instance_id with _ | iid <;>
      rcases hsg : ids.security_group_id with _ | sg <;>
        rcases hvp : ids.vpc_id with _ | v <;>
          rcases hie : DeleteOutcome.exc env.terminate_instances with _ | mi <;>
            rcases hse : DeleteOutcome.exc env.delete_security_group with _ | ms <;>
              rcases hvs : env.vpc_cleanup.success <;>
                simp [cleanup_specific_resources, instance_step_errors,
                  instance_step_cleaned, sg_step_errors, sg_step_cleaned,
                  vpc_step_errors, vpc_step_cleaned, hin, hsg, hvp, hie, hse, hvs]
  · intro m sgp vpp
    rfl
  · intro iids sgs vpcs
    simp [cleanup_ec2_resources_by_session, sweep_sg_fold_eq, sweep_vpc_fold_eq]

end ResourceCleanup

end SecBaseline
